import Mathlib

/-!
Verification of the ranking / snippet-extraction core of boyter/sc
(`processor/snippet.go`, `processor/worker_summarize.go`).

Shallow embedding conventions:
* Go `int` is modelled as `Int`; Go integer division (truncation toward
  zero) as `Int.tdiv`.
* Go `[]byte` content is modelled as `List Nat` (byte values).
* Go `map[string][][]int` (term → match ranges) is modelled as an
  association list `List (String × List (Int × Int))`; the list order
  models the (nondeterministic) map iteration order.  A map read of a
  missing key yields the zero value, modelled by `lookupD`.
* A Go runtime panic (out-of-range index or slice) is modelled by
  returning `none`; every fallible function is `Option`-valued.
* `float64` scores: every score in `extractRelevantV3` is produced by one
  exact integer sum followed by one division, so it is modelled
  symbolically by `GoFloat.frac num den` — the IEEE value num/den
  (`den = 0`, `num > 0` is +Inf; `0/0` is NaN).  All additions involved
  are exact in float64 (small integers), so this representation is exact.
* Go `sort.Slice` is not stable; the embedding uses the stable
  `List.insertionSort`, one admissible outcome of the unstable sort, so
  the order of the input list (map iteration order) remains the explicit
  source of nondeterminism.
-/

/-- The IEEE float64 value `num / den` as produced by the one division in
`extractRelevantV3` (snippet.go line 417).  `den = 0` with `num ≠ 0`
represents a signed infinity, `0/0` represents NaN. -/
inductive GoFloat where
  | frac (num den : Int)
deriving DecidableEq

/-- Go float64 `>` comparison on two represented values (NaN compares
false with everything; for finite values cross-multiplication with the
positive factor `b^2 * d^2`). -/
def gfGt : GoFloat → GoFloat → Bool
  | .frac a b, .frac c d =>
    if b = 0 then
      if a = 0 then false
      else if d = 0 then
        if c = 0 then false
        else decide (0 < a) && decide (c < 0)
      else decide (0 < a)
    else
      if d = 0 then
        if c = 0 then false
        else decide (c < 0)
      else decide (c * d * b ^ 2 < a * b * d ^ 2)

/-- The rational value of a finite represented float; `none` for ±Inf/NaN. -/
def gfToRat : GoFloat → Option ℚ
  | .frac a b => if b = 0 then none else some ((a : ℚ) / (b : ℚ))

/-- Whether the represented float64 is finite. -/
def gfIsFinite : GoFloat → Bool
  | .frac _ b => decide (b ≠ 0)

/-- Model of `fileJob` (the document record): content bytes, file identity, the
match-location map (association list modelling map iteration order) and
the mutable score. -/
structure fileJob where
  Filename : String
  Location : String
  Content : List Nat
  Bytes : Int
  MatchLocations : List (String × List (Int × Int))
  Score : GoFloat
deriving DecidableEq

/-- Model of `Snippet` from snippet.go: rendered bytes plus the absolute window. -/
structure Snippet where
  Content : List Nat
  StartPos : Int
  EndPos : Int
deriving DecidableEq

/-- Model of `relevantV3` from snippet.go: one flattened (term, start, end) triple. -/
structure relevantV3 where
  Word : String
  Start : Int
  End : Int
deriving DecidableEq

/-- Model of `bestMatch` from snippet.go. -/
structure bestMatch where
  StartPos : Int
  EndPos : Int
  Score : GoFloat
  Relevant : List relevantV3
deriving DecidableEq

/-- Go map read with zero default: `documentFrequencies[word]`. -/
def lookupD (m : List (String × Int)) (k : String) : Int :=
  match List.lookup k m with
  | some v => v
  | none => 0

/-- Go byte read `content[i]`; `none` models the index-out-of-range panic. -/
def goIndex (content : List Nat) (i : Int) : Option Nat :=
  if i < 0 then none else content[i.toNat]?

/-- Go slice `content[s:e]`; `none` models the slice-bounds panic. -/
def goByteSlice (content : List Nat) (s e : Int) : Option (List Nat) :=
  if 0 ≤ s ∧ s ≤ e ∧ e ≤ (content.length : Int) then
    some ((content.drop s.toNat).take (e - s).toNat)
  else none

/-- Go `unicode.IsSpace` restricted to the byte range 0..255 (the code calls
it on `rune(res.Content[i])`, a single byte widened to a rune). -/
def goIsSpaceByte (b : Nat) : Bool :=
  b = 9 || b = 10 || b = 11 || b = 12 || b = 13 || b = 32 || b = 133 || b = 160

/-- The left scan of `findNearbySpace` (snippet.go lines 453-457):
iterate `n` times starting at byte index `i` going down, reading
`res.Content[i]` each time.  `none` is the out-of-range panic,
`some (some i)` a whitespace hit, `some none` no hit. -/
def scanLeftN (content : List Nat) : Int → Nat → Option (Option Int)
  | _, 0 => some none
  | i, n + 1 =>
    match goIndex content i with
    | none => none
    | some b => if goIsSpaceByte b then some (some i) else scanLeftN content (i - 1) n

/-- The right scan of `findNearbySpace` (snippet.go lines 465-469). -/
def scanRightN (content : List Nat) : Int → Nat → Option (Option Int)
  | _, 0 => some none
  | i, n + 1 =>
    match goIndex content i with
    | none => none
    | some b => if goIsSpaceByte b then some (some i) else scanRightN content (i + 1) n

/-- Model of `findNearbySpace` from snippet.go lines 445-472.  The left loop runs
`for i := pos; i >= leftDistance; i--` (`pos + 1 - leftDistance` steps),
the right loop `for i := pos; i < rightDistance; i++`
(`rightDistance - pos` steps, with `rightDistance` clamped to the content
length).  Note the left loop's first read is `content[pos]` itself. -/
def findNearbySpace (res : fileJob) (pos distance : Int) : Option (Int × Bool) :=
  let leftDistance := if pos - distance < 0 then 0 else pos - distance
  match scanLeftN res.Content pos (pos + 1 - leftDistance).toNat with
  | none => none
  | some (some i) => some (i, true)
  | some none =>
    let rightDistance :=
      if (res.Content.length : Int) ≤ pos + distance then (res.Content.length : Int)
      else pos + distance
    match scanRightN res.Content pos (rightDistance - pos).toNat with
    | none => none
    | some (some i) => some (i, true)
    | some none => some (pos, false)

/-- Flattening of the match-location map into `rv3`
(snippet.go lines 310-320), in map-iteration order. -/
def flattenLocations (ml : List (String × List (Int × Int))) : List relevantV3 :=
  ml.foldl (fun acc kv => acc ++ kv.2.map (fun p => ⟨kv.1, p.1, p.2⟩)) []

/-- The comparator of the `sort.Slice` call at snippet.go line 322:
strictly by start offset. -/
def startLE (a b : relevantV3) : Prop := a.Start ≤ b.Start

instance : DecidableRel startLE :=
  fun a b => inferInstanceAs (Decidable (a.Start ≤ b.Start))

instance : IsTotal relevantV3 startLE := ⟨fun a b => Int.le_total a.Start b.Start⟩

instance : IsTrans relevantV3 startLE := ⟨fun _ _ _ h1 h2 => le_trans h1 h2⟩

/-- Strict version of `startLE`, used to state determinism. -/
def startLT (a b : relevantV3) : Prop := a.Start < b.Start

instance : IsAntisymm relevantV3 startLT :=
  ⟨fun _ _ h1 h2 => absurd h2 (not_lt_of_gt h1)⟩

/-- The sort at snippet.go lines 322-324 (stable resolution of the
unstable `sort.Slice`). -/
def sortByStart (l : List relevantV3) : List relevantV3 :=
  l.insertionSort startLE

/-- The flattened-and-sorted `rv3` slice of `extractRelevantV3`. -/
def sortedLocations (res : fileJob) : List relevantV3 :=
  sortByStart (flattenLocations res.MatchLocations)

/-- The left slide of `extractRelevantV3` (snippet.go lines 335-355):
walk the elements before the anchor backwards, taking while
`rv3[i].End - rv3[j].Start ≤ wrapLength`. -/
def slideLeft (anchor : relevantV3) (wrapLength : Int) (before : List relevantV3) :
    List relevantV3 :=
  before.reverse.takeWhile (fun r => decide (anchor.End - r.Start ≤ wrapLength))

/-- The right slide of `extractRelevantV3` (snippet.go lines 358-377):
walk the elements after the anchor forwards, taking while
`rv3[j].End - rv3[i].Start ≤ wrapLength`. -/
def slideRight (anchor : relevantV3) (wrapLength : Int) (after : List relevantV3) :
    List relevantV3 :=
  after.takeWhile (fun r => decide (r.End - anchor.Start ≤ wrapLength))

/-- The padding step (snippet.go lines 381-395): if the window is
narrower than `relLength`, widen both ends by half the shortfall and
clamp to the content bounds. -/
def padWindow (contentLen relLength sp ep : Int) : Int × Int :=
  if ep - sp < relLength then
    let add := Int.tdiv (relLength - (ep - sp)) 2
    let sp2 := sp - add
    let ep2 := ep + add
    ((if sp2 < 0 then 0 else sp2), (if contentLen < ep2 then contentLen else ep2))
  else (sp, ep)

/-- The score of one anchor's bracket (snippet.go lines 410-417):
`m.Score` starts at 0, gains `len(m.Relevant)` and `EndPos - EndPos`,
then is divided by `float64(documentFrequencies[rv3[i].Word])`.  All the
integer additions are exact in float64, so the value is represented as
the symbolic fraction. -/
def anchorScore (relevantCount : Nat) (endPos : Int) (freqCount : Int) : GoFloat :=
  .frac (0 + (relevantCount : Int) + (endPos - endPos)) freqCount

/-- The pure part of one iteration of the anchor loop of
`extractRelevantV3` (snippet.go lines 327-418), excluding the two
`findNearbySpace` calls: pick the anchor `rv3[i]`, slide left and right,
pad, and score.  The content enters only through its length (the clamp
at lines 392-394). -/
def buildMatchCore (contentLen : Int) (documentFrequencies : List (String × Int))
    (relLength : Int) (rv3 : List relevantV3) (i : Nat) : Option bestMatch :=
  match rv3[i]? with
  | none => none
  | some anchor =>
    let wrapLength := Int.tdiv relLength 2
    let left := slideLeft anchor wrapLength (rv3.take i)
    let right := slideRight anchor wrapLength (rv3.drop (i + 1))
    let relevant := anchor :: (left ++ right)
    let sp := match left.getLast? with | some r => r.Start | none => anchor.Start
    let ep := match right.getLast? with | some r => r.End | none => anchor.End
    let w := padWindow contentLen relLength sp ep
    some ⟨w.1, w.2, anchorScore relevant.length w.2 (lookupD documentFrequencies anchor.Word),
      relevant⟩

/-- One full iteration of the anchor loop, including the two
`findNearbySpace` calls at snippet.go lines 400-401 whose results are
discarded but whose evaluation can panic (`none`). -/
def buildMatch (res : fileJob) (documentFrequencies : List (String × Int))
    (relLength : Int) (rv3 : List relevantV3) (i : Nat) : Option bestMatch :=
  match buildMatchCore (res.Content.length : Int) documentFrequencies relLength rv3 i with
  | none => none
  | some m =>
    match findNearbySpace res m.StartPos 10 with
    | none => none
    | some _ =>
      match findNearbySpace res m.EndPos 10 with
      | none => none
      | some _ => some m

/-- The anchor loop over the given index list (ascending `i` in the
source), collecting `bestMatches` and propagating any panic. -/
def buildAllFrom (res : fileJob) (documentFrequencies : List (String × Int))
    (relLength : Int) (rv3 : List relevantV3) : List Nat → Option (List bestMatch)
  | [] => some []
  | i :: rest =>
    match buildMatch res documentFrequencies relLength rv3 i with
    | none => none
    | some m =>
      match buildAllFrom res documentFrequencies relLength rv3 rest with
      | none => none
      | some ms => some (m :: ms)

/-- The comparator of the `sort.Slice` call at snippet.go line 422
(descending score), as a stable before-relation: `x` stays before `y`
unless `y`'s score is strictly greater. -/
def scoreBefore (x y : bestMatch) : Prop := gfGt y.Score x.Score = false

instance : DecidableRel scoreBefore :=
  fun x y => inferInstanceAs (Decidable (gfGt y.Score x.Score = false))

/-- The sort of `bestMatches` by descending score (stable resolution). -/
def sortByScore (l : List bestMatch) : List bestMatch :=
  l.insertionSort scoreBefore

/-- Model of `extractRelevantV3` from snippet.go lines 305-440: flatten and sort
the match map, run the anchor loop, sort the candidates by descending
score, take `bestMatches[0]` (panic — `none` — when empty), and render
`indicator + string(res.Content[startPos:endPos]) + indicator` as a raw
byte slice. -/
def extractRelevantV3 (res : fileJob) (documentFrequencies : List (String × Int))
    (relLength : Int) (indicator : List Nat) : Option Snippet :=
  match buildAllFrom res documentFrequencies relLength (sortedLocations res)
      (List.range (sortedLocations res).length) with
  | none => none
  | some bms =>
    match (sortByScore bms).head? with
    | none => none
    | some bm =>
      match goByteSlice res.Content bm.StartPos bm.EndPos with
      | none => none
      | some bytes => some ⟨indicator ++ bytes ++ indicator, bm.StartPos, bm.EndPos⟩

/-- The collect-and-truncate step of `ResultSummarizer.Start`
(worker_summarize.go lines 36-51): after draining the input channel, if
`ResultLimit != -1` and the batch is larger, the batch is cut to
`results[:f.ResultLimit]` — and this truncated batch is the one passed
to `rankResults` on line 51.  `none` models the slice panic for a
negative non-sentinel limit. -/
def collectAndTruncate (results : List fileJob) (resultLimit : Int) : Option (List fileJob) :=
  if resultLimit ≠ -1 ∧ resultLimit < (results.length : Int) then
    if 0 ≤ resultLimit then some (results.take resultLimit.toNat) else none
  else some results

/-- The highlight-remapping loop of `formatJson`
(worker_summarize.go lines 73-82) and `formatDefault` (lines 128-137):
collect every match range with `s[0] >= StartPos && s[1] <= EndPos`,
shifted left by `StartPos`, in map-iteration order. -/
def remapHighlights (ml : List (String × List (Int × Int))) (startPos endPos : Int) :
    List (Int × Int) :=
  ml.foldl
    (fun l kv =>
      kv.2.foldl
        (fun l s =>
          if startPos ≤ s.1 ∧ s.2 ≤ endPos then l ++ [(s.1 - startPos, s.2 - startPos)] else l)
        l)
    []

/-- The state of the document's match-location map after the same loop:
`s` ranges over Go slice headers aliasing the map's backing arrays, so
the assignments `s[0] = s[0] - v3.StartPos`, `s[1] = s[1] - v3.StartPos`
(worker_summarize.go lines 77-78) write through into
`res.MatchLocations`; every range inside the window is shifted in place,
ranges outside are left untouched. -/
def matchLocationsAfterRemap (ml : List (String × List (Int × Int))) (startPos endPos : Int) :
    List (String × List (Int × Int)) :=
  ml.map (fun kv =>
    (kv.1, kv.2.map (fun s =>
      if startPos ≤ s.1 ∧ s.2 ≤ endPos then (s.1 - startPos, s.2 - startPos) else s)))

/-- The flattened match ranges of a match-location map, in map-iteration
order (used to state what `remapHighlights` collects). -/
def flattenRanges (ml : List (String × List (Int × Int))) : List (Int × Int) :=
  ml.foldl (fun acc kv => acc ++ kv.2) []

/-- Modelled from the spec, helper of the frequency tally: add `v` to
the running total of key `k` (Go `freq[k] = freq[k] + len(v)`). -/
def bumpKey : List (String × Int) → String → Int → List (String × Int)
  | [], k, v => [(k, v)]
  | (k', v') :: rest, k, v =>
    if k' = k then (k', v' + v) :: rest else (k', v') :: bumpKey rest k v

/-- Modelled from the spec: `calculateDocumentTermFrequency` (called at
worker_summarize.go lines 64 and 110, named `calculateDocumentFrequency`
in result_ranker_test.go line 76) is not part of the supplied sources.
Spec 4.1: "Pure function: batch → term-frequency map.  For each
document, for each term key in its match map, add the number of recorded
ranges for that term to the term's running total.  Empty batch → empty
map." -/
def calculateDocumentTermFrequency (results : List fileJob) : List (String × Int) :=
  results.foldl
    (fun freq res =>
      res.MatchLocations.foldl (fun freq kv => bumpKey freq kv.1 (kv.2.length : Int)) freq)
    []

/-- The number of match ranges a document records for a term (summed over
association-list entries with that key; a Go map has each key once). -/
def termRangeCount (res : fileJob) (term : String) : Int :=
  ((res.MatchLocations.filter (fun kv => kv.1 = term)).map (fun kv => (kv.2.length : Int))).sum

/-- A byte in the range used by UTF-8 continuation positions. -/
def isUtf8ContinuationByte (b : Nat) : Bool := 128 ≤ b && b < 192

/-- A slice boundary `i` into UTF-8 content is rune-safe when it does not
fall on a continuation byte: slicing at such a boundary never splits a
multi-byte character.  Boundaries outside the content (in particular `0`
and the length) split nothing. -/
def runeSafeBoundary (content : List Nat) (i : Int) : Bool :=
  match goIndex content i with
  | none => true
  | some b => !(isUtf8ContinuationByte b)

/-- Sample document (filename-style match, empty match map). -/
def sampleJobA : fileJob := ⟨"a.go", "/r/a.go", [97], 1, [], .frac 0 1⟩

/-- Second sample document. -/
def sampleJobB : fileJob := ⟨"b.go", "/r/b.go", [98], 1, [], .frac 0 1⟩

/-- C1 counterexample: with a batch of two documents and result limit 1
(not the sentinel -1), the batch handed to `rankResults` at
worker_summarize.go line 51 is the truncated one-element batch, not the
fully collected batch: ranking runs on an already-truncated batch. -/
theorem collectAndTruncate_cuts_before_ranking :
    collectAndTruncate [sampleJobA, sampleJobB] 1 = some [sampleJobA] ∧
      some [sampleJobA] ≠ some [sampleJobA, sampleJobB] := by
  constructor
  · decide
  · decide

/-- C1 (amended): truncation is applied before ranking, not after it:
whenever the limit is not the sentinel -1 (and is a valid nonnegative
slice bound) and the batch exceeds it, `Start` cuts the batch to the
first `limit` documents first, and `rankResults` is invoked on that
already-truncated batch. -/
theorem collectAndTruncate_truncates_first (results : List fileJob) (limit : Int)
    (h1 : limit ≠ -1) (h2 : limit < (results.length : Int)) (h3 : 0 ≤ limit) :
    collectAndTruncate results limit = some (results.take limit.toNat) := by
  unfold collectAndTruncate
  rw [if_pos ⟨h1, h2⟩, if_pos h3]

/-- Witness for the amended C1 theorem at a concrete two-document batch
with limit 1. -/
theorem collectAndTruncate_truncates_first_witness :
    (1 : Int) ≠ -1 ∧ (1 : Int) < (([sampleJobA, sampleJobB] : List fileJob).length : Int) ∧
      (0 : Int) ≤ 1 ∧
      collectAndTruncate [sampleJobA, sampleJobB] 1 =
        some ([sampleJobA, sampleJobB].take (1 : Int).toNat) :=
  ⟨by decide, by decide, by decide,
    collectAndTruncate_truncates_first [sampleJobA, sampleJobB] 1 (by decide) (by decide)
      (by decide)⟩

/-- C2: a document whose match map is empty makes `extractRelevantV3`
fault for every content, frequency index, target length and indicator:
`rv3` stays empty, so `bestMatches` is empty and `bestMatches[0]` at
snippet.go line 432 is an index-out-of-range panic (`none`), instead of
the graceful sentinel snippet the claim requires. -/
theorem extractRelevantV3_empty_map_panics (fn loc : String) (content : List Nat) (b : Int)
    (sc : GoFloat) (freq : List (String × Int)) (rl : Int) (ind : List Nat) :
    extractRelevantV3 ⟨fn, loc, content, b, [], sc⟩ freq rl ind = none := rfl

/-- C3 counterexample: with the anchor's term absent from the frequency
index (Go map read gives 0) the produced score is the non-finite +Inf —
the denominator is used as 0, not replaced by 1, so a non-finite score is
produced, contrary to the claim. -/
theorem anchorScore_zero_count_not_one :
    gfToRat (anchorScore 1 0 0) = none ∧ gfIsFinite (anchorScore 1 0 0) = false ∧
      (none : Option ℚ) ≠ some ((1 : ℚ) / 1) := by
  refine ⟨rfl, rfl, fun h => Option.noConfusion h⟩

/-- C3 (amended): the bracket score is the IEEE float division
(1 base + member matches) / frequency count with no fallback: for a
positive count the value is exactly that rational, but a missing or zero
count is used as a 0 denominator, yielding +Inf (no runtime fault in Go,
but a non-finite score) rather than a division by 1. -/
theorem anchorScore_ieee_division (n : Nat) (e c : Int) (hn : 1 ≤ n) :
    (1 ≤ c → gfToRat (anchorScore n e c) = some ((n : ℚ) / (c : ℚ))) ∧
      (c = 0 → gfIsFinite (anchorScore n e c) = false) := by
  constructor
  · intro hc
    have hc0 : c ≠ 0 := by omega
    have h1 : (0 + (n : Int) + (e - e)) = (n : Int) := by ring
    unfold anchorScore
    rw [h1]
    simp [gfToRat, hc0]
  · intro hc
    subst hc
    simp [anchorScore, gfIsFinite]

/-- Witness for the amended C3 theorem: two member matches, frequency
count 2. -/
theorem anchorScore_ieee_division_witness :
    1 ≤ 2 ∧ ((1 ≤ (2 : Int) → gfToRat (anchorScore 2 7 2) = some ((2 : ℚ) / (2 : ℚ))) ∧
      ((2 : Int) = 0 → gfIsFinite (anchorScore 2 7 2) = false)) :=
  ⟨by decide, anchorScore_ieee_division 2 7 2 (by decide)⟩

/-- C6: the remap loop mutates the document through slice aliasing: the
match range [5,9), fully inside the window [3,11), is rewritten in place
to the window-local [2,6), so after formatting the match-location map no
longer holds the original absolute byte offsets. -/
theorem matchLocations_mutated_by_remap :
    matchLocationsAfterRemap [("cat", [(5, 9)])] 3 11 = [("cat", [(2, 6)])] ∧
      ([("cat", [((2 : Int), (6 : Int))])] : List (String × List (Int × Int))) ≠
        [("cat", [(5, 9)])] := by
  constructor
  · decide
  · decide

/-- Sample document for C10: ten bytes of content with no whitespace and
a match [8,10) reaching the end of the content. -/
def c10job : fileJob :=
  ⟨"i.go", "/r/i.go", [97, 97, 97, 97, 97, 97, 97, 97, 97, 97], 10, [("aa", [(8, 10)])],
    .frac 0 1⟩

/-- C10: when the padded window's EndPos is clamped to exactly the
content length (10), `findNearbySpace(res, 10, 10)` reads
`res.Content[10]` — its left loop starts at `i = pos` — which is out of
range (`none` models the panic), and the panic propagates through
`extractRelevantV3`, so the claimed in-bounds property fails. -/
theorem findNearbySpace_at_length_panics :
    findNearbySpace c10job 10 10 = none ∧
      extractRelevantV3 c10job [("aa", 1)] 4 [] = none := by
  constructor
  · decide
  · decide

lemma remap_inner_foldl (sp ep : Int) (ranges : List (Int × Int)) (l : List (Int × Int)) :
    ranges.foldl
        (fun l s =>
          if sp ≤ s.1 ∧ s.2 ≤ ep then l ++ [(s.1 - sp, s.2 - sp)] else l) l =
      l ++ ((ranges.filter (fun s => decide (sp ≤ s.1 ∧ s.2 ≤ ep))).map
        (fun s => (s.1 - sp, s.2 - sp))) := by
  induction ranges generalizing l with
  | nil => simp
  | cons hd tl ih =>
    by_cases h : sp ≤ hd.1 ∧ hd.2 ≤ ep
    · simp [List.foldl_cons, List.filter_cons, h, ih]
    · simp [List.foldl_cons, List.filter_cons, h, ih]

lemma flattenRanges_foldl (ml : List (String × List (Int × Int))) (acc : List (Int × Int)) :
    ml.foldl (fun a kv => a ++ kv.2) acc = acc ++ flattenRanges ml := by
  induction ml generalizing acc with
  | nil => simp [flattenRanges]
  | cons kv rest ih =>
    rw [List.foldl_cons, ih]
    have h2 : flattenRanges (kv :: rest) = kv.2 ++ flattenRanges rest := by
      show List.foldl _ ([] ++ kv.2) rest = _
      rw [ih]
      simp
    rw [h2, List.append_assoc]

lemma flattenRanges_cons (kv : String × List (Int × Int)) (rest : List (String × List (Int × Int))) :
    flattenRanges (kv :: rest) = kv.2 ++ flattenRanges rest := by
  show List.foldl _ ([] ++ kv.2) rest = _
  rw [flattenRanges_foldl]
  simp

lemma remapHighlights_foldl (sp ep : Int) (ml : List (String × List (Int × Int)))
    (l : List (Int × Int)) :
    ml.foldl
        (fun l kv =>
          kv.2.foldl
            (fun l s =>
              if sp ≤ s.1 ∧ s.2 ≤ ep then l ++ [(s.1 - sp, s.2 - sp)] else l) l) l =
      l ++ ((flattenRanges ml).filter (fun s => decide (sp ≤ s.1 ∧ s.2 ≤ ep))).map
        (fun s => (s.1 - sp, s.2 - sp)) := by
  induction ml generalizing l with
  | nil => simp [flattenRanges]
  | cons kv rest ih =>
    rw [List.foldl_cons, remap_inner_foldl, ih, flattenRanges_cons, List.filter_append,
      List.map_append, List.append_assoc]

/-- C5: the remapped highlight list contains exactly the match ranges
fully inside the window [StartPos, EndPos] (condition
`s[0] >= StartPos && s[1] <= EndPos`), each translated by -StartPos, in
their original order; partially overlapping or outside ranges are
dropped. -/
theorem remapHighlights_exact (ml : List (String × List (Int × Int))) (sp ep : Int) :
    remapHighlights ml sp ep =
      ((flattenRanges ml).filter (fun s => decide (sp ≤ s.1 ∧ s.2 ≤ ep))).map
        (fun s => (s.1 - sp, s.2 - sp)) := by
  have h := remapHighlights_foldl sp ep ml []
  simpa [remapHighlights] using h

lemma lookupD_nil (k : String) : lookupD [] k = 0 := rfl

lemma lookupD_cons (a : String) (b : Int) (rest : List (String × Int)) (k' : String) :
    lookupD ((a, b) :: rest) k' = if k' = a then b else lookupD rest k' := by
  by_cases h : k' = a
  · simp [lookupD, List.lookup, h]
  · have hb : (k' == a) = false := by
      rw [beq_eq_false_iff_ne]
      exact h
    simp [lookupD, List.lookup, hb, h]

lemma lookupD_bumpKey (m : List (String × Int)) (k k' : String) (v : Int) :
    lookupD (bumpKey m k v) k' =
      lookupD m k' + (if k = k' then v else 0) := by
  induction m with
  | nil =>
    rw [show bumpKey [] k v = [(k, v)] from rfl,
      lookupD_cons, lookupD_nil]
    by_cases h : k' = k
    · subst h
      simp
    · have h2 : ¬k = k' := fun hh => h hh.symm
      simp [h, h2]
  | cons kv rest ih =>
    rcases kv with ⟨a, b⟩
    by_cases h1 : a = k
    · rw [show bumpKey ((a, b) :: rest) k v = (a, b + v) :: rest
        from by simp [bumpKey, h1]]
      rw [lookupD_cons, lookupD_cons]
      by_cases h2 : k' = a
      · have h3 : k = k' := h1 ▸ h2.symm
        simp [h2, h3]
      · have h3 : ¬k = k' := fun hh => h2 (hh ▸ h1).symm
        simp [h2, h3]
    · rw [show bumpKey ((a, b) :: rest) k v =
          (a, b) :: bumpKey rest k v
        from by simp [bumpKey, h1]]
      rw [lookupD_cons, lookupD_cons]
      by_cases h2 : k' = a
      · have h3 : ¬k = a := fun hh => h1 hh.symm
        simp [h2, h3]
      · simp [h2, ih]

lemma lookupD_docFold (entries : List (String × List (Int × Int)))
    (freq : List (String × Int)) (t : String) :
    lookupD
        (entries.foldl
          (fun f kv => bumpKey f kv.1 (kv.2.length : Int)) freq)
        t =
      lookupD freq t +
        ((entries.filter (fun kv => kv.1 = t)).map (fun kv => (kv.2.length : Int))).sum := by
  induction entries generalizing freq with
  | nil => simp
  | cons kv rest ih =>
    rw [List.foldl_cons, ih, lookupD_bumpKey]
    by_cases h : kv.1 = t
    · simp [List.filter_cons, h]
      ring
    · simp [List.filter_cons, h]

lemma lookupD_batchFold (results : List fileJob) (freq : List (String × Int)) (t : String) :
    lookupD
        (results.foldl
          (fun freq res =>
            res.MatchLocations.foldl
              (fun freq kv => bumpKey freq kv.1 (kv.2.length : Int))
              freq)
          freq)
        t =
      lookupD freq t + (results.map (fun res => termRangeCount res t)).sum := by
  induction results generalizing freq with
  | nil => simp
  | cons res rest ih =>
    rw [List.foldl_cons, ih, lookupD_docFold]
    simp [termRangeCount]
    ring

/-- C9: the document frequency of a term equals the sum over every
document in the batch of that term's match-range count, and an empty
batch yields an empty frequency map. -/
theorem documentFrequency_sums_range_counts (results : List fileJob) (term : String) :
    lookupD (calculateDocumentTermFrequency results) term =
        (results.map (fun res => termRangeCount res term)).sum ∧
      calculateDocumentTermFrequency [] = [] := by
  constructor
  · have h := lookupD_batchFold results [] term
    rw [lookupD_nil, zero_add] at h
    exact h
  · rfl

/-- Sample document for C7: content "aéb" ([97, 195, 169, 98], é encoded
as the two bytes 195 169) with one match on "a" at [0,1). -/
def c7job : fileJob := ⟨"g.go", "/r/g.go", [97, 195, 169, 98], 4, [("a", [(0, 1)])], .frac 0 1⟩

/-- C7 counterexample: with target length 3 the chosen window is [0,2)
and the rendered bytes are [97, 195] — the second boundary lands on the
continuation byte 169, splitting the two-byte character é, so the slice
is not rune-safe. -/
theorem extractRelevantV3_splits_rune :
    extractRelevantV3 c7job [("a", 1)] 3 [] = some ⟨[97, 195], 0, 2⟩ ∧
      runeSafeBoundary c7job.Content 2 = false := by
  constructor
  · decide
  · decide

/-- C7 (amended): the rendered snippet content equals
indicator ++ content[StartPos:EndPos] ++ indicator where the slice is the
raw byte slice `string(res.Content[startPos:endPos])` of snippet.go line
436 — offsets stay byte offsets and the boundaries are not rune-aligned,
so a multi-byte character can be split. -/
theorem extractRelevantV3_content_is_byte_slice (res : fileJob)
    (freq : List (String × Int)) (rl : Int) (ind : List Nat) (snip : Snippet)
    (h : extractRelevantV3 res freq rl ind = some snip) :
    ∃ bytes, goByteSlice res.Content snip.StartPos snip.EndPos = some bytes ∧
      snip.Content = ind ++ bytes ++ ind := by
  unfold extractRelevantV3 at h
  split at h
  · exact absurd h (by simp)
  · split at h
    · exact absurd h (by simp)
    · split at h
      · exact absurd h (by simp)
      · rename_i bytes hs
        simp only [Option.some.injEq] at h
        subst h
        exact ⟨bytes, hs, rfl⟩

/-- Witness for the amended C7 theorem at the concrete document c7job. -/
theorem extractRelevantV3_content_is_byte_slice_witness :
    extractRelevantV3 c7job [("a", 1)] 3 [] = some ⟨[97, 195], 0, 2⟩ ∧
      ∃ bytes,
        goByteSlice c7job.Content (Snippet.StartPos ⟨[97, 195], 0, 2⟩)
            (Snippet.EndPos ⟨[97, 195], 0, 2⟩) = some bytes ∧
          Snippet.Content ⟨[97, 195], 0, 2⟩ = [] ++ bytes ++ [] :=
  ⟨by decide,
    extractRelevantV3_content_is_byte_slice c7job [("a", 1)] 3 [] ⟨[97, 195], 0, 2⟩ (by decide)⟩

/-- Sample document for C8: content "ab cdefgh" with one match "ef" at
[5,7); the padded window is [4,8) and a whitespace byte sits at index 2,
within 10 bytes of both boundaries. -/
def c8job : fileJob :=
  ⟨"h.go", "/r/h.go", [97, 98, 32, 99, 100, 101, 102, 103, 104], 9, [("ef", [(5, 7)])],
    .frac 0 1⟩

/-- Companion document for C8 with the whitespace byte replaced by a
letter: identical match map and content length, no whitespace at all. -/
def c8jobNoSpace : fileJob :=
  ⟨"h.go", "/r/h.go", [97, 98, 97, 99, 100, 101, 102, 103, 104], 9, [("ef", [(5, 7)])],
    .frac 0 1⟩

/-- C8 counterexample: `findNearbySpace` finds the whitespace at index 2
within 10 bytes of the padded boundary 4, yet the returned window keeps
StartPos = 4 — the boundary is not snapped to the whitespace. -/
theorem extractRelevantV3_does_not_snap :
    extractRelevantV3 c8job [("ef", 1)] 4 [] = some ⟨[100, 101, 102, 103], 4, 8⟩ ∧
      findNearbySpace c8job 4 10 = some (2, true) ∧ ((4 : Int)) ≠ 2 := by
  refine ⟨by decide, by decide, by decide⟩

lemma buildMatch_some_core (res : fileJob) (freq : List (String × Int)) (rl : Int)
    (rv3 : List relevantV3) (i : Nat) (m : bestMatch)
    (h : buildMatch res freq rl rv3 i = some m) :
    buildMatchCore (res.Content.length : Int) freq rl rv3 i = some m := by
  unfold buildMatch at h
  split at h
  · exact absurd h (by simp)
  · rename_i m' hc
    split at h
    · exact absurd h (by simp)
    · split at h
      · exact absurd h (by simp)
      · simp only [Option.some.injEq] at h
        rw [← h]
        exact hc

lemma buildMatch_some_eq (res1 res2 : fileJob) (freq : List (String × Int)) (rl : Int)
    (rv3 : List relevantV3) (i : Nat) (m1 m2 : bestMatch)
    (hlen : res1.Content.length = res2.Content.length)
    (h1 : buildMatch res1 freq rl rv3 i = some m1)
    (h2 : buildMatch res2 freq rl rv3 i = some m2) : m1 = m2 := by
  have hc1 := buildMatch_some_core res1 freq rl rv3 i m1 h1
  have hc2 := buildMatch_some_core res2 freq rl rv3 i m2 h2
  rw [hlen] at hc1
  exact Option.some.inj (hc1.symm.trans hc2)

lemma buildAllFrom_some_eq (res1 res2 : fileJob) (freq : List (String × Int)) (rl : Int)
    (rv3 : List relevantV3) (idxs : List Nat) (l1 l2 : List bestMatch)
    (hlen : res1.Content.length = res2.Content.length)
    (h1 : buildAllFrom res1 freq rl rv3 idxs = some l1)
    (h2 : buildAllFrom res2 freq rl rv3 idxs = some l2) : l1 = l2 := by
  induction idxs generalizing l1 l2 with
  | nil =>
    rw [show buildAllFrom res1 freq rl rv3 [] = some [] from rfl] at h1
    rw [show buildAllFrom res2 freq rl rv3 [] = some [] from rfl] at h2
    simp only [Option.some.injEq] at h1 h2
    rw [← h1, ← h2]
  | cons i rest ih =>
    unfold buildAllFrom at h1 h2
    split at h1
    · exact absurd h1 (by simp)
    rename_i m1' hm1
    split at h1
    · exact absurd h1 (by simp)
    rename_i t1 hr1
    split at h2
    · exact absurd h2 (by simp)
    rename_i m2' hm2
    split at h2
    · exact absurd h2 (by simp)
    rename_i t2 hr2
    simp only [Option.some.injEq] at h1 h2
    rw [← h1, ← h2, buildMatch_some_eq res1 res2 freq rl rv3 i m1' m2' hlen hm1 hm2,
      ih t1 t2 hr1 hr2]

/-- C8 (amended): the two `findNearbySpace` results are computed but
discarded (the TODO at snippet.go line 399), so window boundaries are
never snapped to whitespace: the chosen StartPos/EndPos depend on the
content only through its length, hence two documents with the same match
map and content length — however their whitespace is placed — get
identical window boundaries whenever both extractions return. -/
theorem extractRelevantV3_boundaries_ignore_whitespace (res1 res2 : fileJob)
    (freq : List (String × Int)) (rl : Int) (ind : List Nat) (s1 s2 : Snippet)
    (hml : res1.MatchLocations = res2.MatchLocations)
    (hlen : res1.Content.length = res2.Content.length)
    (h1 : extractRelevantV3 res1 freq rl ind = some s1)
    (h2 : extractRelevantV3 res2 freq rl ind = some s2) :
    s1.StartPos = s2.StartPos ∧ s1.EndPos = s2.EndPos := by
  have hsl : sortedLocations res1 = sortedLocations res2 := by
    unfold sortedLocations
    rw [hml]
  unfold extractRelevantV3 at h1 h2
  rw [hsl] at h1
  split at h1
  · exact absurd h1 (by simp)
  rename_i bms1 hb1
  split at h1
  · exact absurd h1 (by simp)
  rename_i bm hh1
  split at h1
  · exact absurd h1 (by simp)
  rename_i by1 hs1
  split at h2
  · exact absurd h2 (by simp)
  rename_i bms2 hb2
  have hbms : bms1 = bms2 :=
    buildAllFrom_some_eq res1 res2 freq rl (sortedLocations res2)
      (List.range (sortedLocations res2).length) bms1 bms2 hlen hb1 hb2
  subst hbms
  split at h2
  · rename_i hh2
    rw [hh1] at hh2
    exact absurd hh2 (by simp)
  rename_i bm2 hh2
  rw [hh1] at hh2
  have hbm : bm = bm2 := Option.some.inj hh2
  subst hbm
  split at h2
  · exact absurd h2 (by simp)
  rename_i by2 hs2
  simp only [Option.some.injEq] at h1 h2
  rw [← h1, ← h2]
  exact ⟨rfl, rfl⟩

/-- Witness for the amended C8 theorem: c8job and its whitespace-free
companion produce snippets with identical boundaries. -/
theorem extractRelevantV3_boundaries_ignore_whitespace_witness :
    c8job.MatchLocations = c8jobNoSpace.MatchLocations ∧
      c8job.Content.length = c8jobNoSpace.Content.length ∧
      extractRelevantV3 c8job [("ef", 1)] 4 [] = some ⟨[100, 101, 102, 103], 4, 8⟩ ∧
      extractRelevantV3 c8jobNoSpace [("ef", 1)] 4 [] = some ⟨[100, 101, 102, 103], 4, 8⟩ ∧
      (Snippet.StartPos ⟨[100, 101, 102, 103], 4, 8⟩ =
          Snippet.StartPos ⟨[100, 101, 102, 103], 4, 8⟩ ∧
        Snippet.EndPos ⟨[100, 101, 102, 103], 4, 8⟩ =
          Snippet.EndPos ⟨[100, 101, 102, 103], 4, 8⟩) :=
  ⟨by decide, by decide, by decide, by decide,
    extractRelevantV3_boundaries_ignore_whitespace c8job c8jobNoSpace [("ef", 1)] 4 []
      ⟨[100, 101, 102, 103], 4, 8⟩ ⟨[100, 101, 102, 103], 4, 8⟩ (by decide) (by decide)
      (by decide) (by decide)⟩

/-- Sample document for C4 in one map-iteration order: terms "a" ([0,1))
and "ab" ([0,2)) share start offset 0 over content "xyz". -/
def jobA : fileJob :=
  ⟨"f.go", "/r/f.go", [120, 121, 122], 3, [("a", [(0, 1)]), ("ab", [(0, 2)])], .frac 0 1⟩

/-- The same document as jobA with the opposite map-iteration order. -/
def jobB : fileJob :=
  ⟨"f.go", "/r/f.go", [120, 121, 122], 3, [("ab", [(0, 2)]), ("a", [(0, 1)])], .frac 0 1⟩

/-- Frequency index for the C4 counterexample: "a" is twice as frequent
as "ab". -/
def fr4 : List (String × Int) := [("a", 2), ("ab", 1)]

/-- C4 counterexample: jobA and jobB carry the same match map (their
flattened locations are permutations of one another) over identical
content, yet the extracted snippets differ ([0,2) versus [0,1)): two
matches share start offset 0, the sort is only by start offset, and the
anchor's identity feeds the frequency weighting, so map iteration order
leaks into the chosen window. -/
theorem extractRelevantV3_order_leaks :
    List.Perm (flattenLocations jobA.MatchLocations) (flattenLocations jobB.MatchLocations) ∧
      jobA.Content = jobB.Content ∧
      extractRelevantV3 jobA fr4 2 [] ≠ extractRelevantV3 jobB fr4 2 [] := by
  refine ⟨by decide, by decide, by decide⟩

lemma pairwiseAnd {α : Type} {R S : α → α → Prop} :
    ∀ {l : List α}, l.Pairwise R → l.Pairwise S → l.Pairwise (fun a b => R a b ∧ S a b)
  | [], _, _ => List.Pairwise.nil
  | _ :: _, h1, h2 => by
    rw [List.pairwise_cons] at h1 h2 ⊢
    exact ⟨fun b hb => ⟨h1.1 b hb, h2.1 b hb⟩, pairwiseAnd h1.2 h2.2⟩

lemma sortByStart_eq_of_perm (l1 l2 : List relevantV3)
    (hperm : List.Perm l1 l2)
    (hdist : l1.Pairwise fun a b => a.Start ≠ b.Start) :
    sortByStart l1 = sortByStart l2 := by
  have hsymm : ∀ {x y : relevantV3}, x.Start ≠ y.Start → y.Start ≠ x.Start :=
    fun h => Ne.symm h
  have p1 : List.Perm (sortByStart l1) l1 := List.perm_insertionSort startLE l1
  have p2 : List.Perm (sortByStart l2) l2 := List.perm_insertionSort startLE l2
  have pp : List.Perm (sortByStart l1) (sortByStart l2) := p1.trans (hperm.trans p2.symm)
  have s1 : List.Pairwise startLE (sortByStart l1) := List.sorted_insertionSort startLE l1
  have s2 : List.Pairwise startLE (sortByStart l2) := List.sorted_insertionSort startLE l2
  have d1 : (sortByStart l1).Pairwise (fun a b => a.Start ≠ b.Start) :=
    (p1.pairwise_iff hsymm).2 hdist
  have d2 : (sortByStart l2).Pairwise (fun a b => a.Start ≠ b.Start) :=
    (p2.pairwise_iff hsymm).2 ((hperm.pairwise_iff hsymm).1 hdist)
  have t1 : List.Sorted startLT (sortByStart l1) :=
    (pairwiseAnd s1 d1).imp fun h => lt_of_le_of_ne h.1 h.2
  have t2 : List.Sorted startLT (sortByStart l2) :=
    (pairwiseAnd s2 d2).imp fun h => lt_of_le_of_ne h.1 h.2
  exact List.eq_of_perm_of_sorted pp t1 t2

lemma findNearbySpace_congr (res1 res2 : fileJob) (pos distance : Int)
    (hC : res1.Content = res2.Content) :
    findNearbySpace res1 pos distance = findNearbySpace res2 pos distance := by
  unfold findNearbySpace
  rw [hC]

lemma buildMatch_congr (res1 res2 : fileJob) (freq : List (String × Int)) (rl : Int)
    (rv3 : List relevantV3) (i : Nat) (hC : res1.Content = res2.Content) :
    buildMatch res1 freq rl rv3 i = buildMatch res2 freq rl rv3 i := by
  unfold buildMatch
  rw [hC]
  simp only [show ∀ pos d, findNearbySpace res1 pos d = findNearbySpace res2 pos d from
    fun pos d => findNearbySpace_congr res1 res2 pos d hC]

lemma buildAllFrom_congr (res1 res2 : fileJob) (freq : List (String × Int)) (rl : Int)
    (rv3 : List relevantV3) (idxs : List Nat) (hC : res1.Content = res2.Content) :
    buildAllFrom res1 freq rl rv3 idxs = buildAllFrom res2 freq rl rv3 idxs := by
  induction idxs with
  | nil => rfl
  | cons i rest ih =>
    unfold buildAllFrom
    rw [buildMatch_congr res1 res2 freq rl rv3 i hC, ih]

/-- C4 (amended): extractRelevantV3 is independent of the map iteration
order only when the flattened match locations have pairwise distinct
start offsets — the sort at snippet.go line 322 orders by start offset
alone, so under that side condition any two iteration orders of the same
match map (over the same content) yield the same result; without it the
counterexample shows the order can leak (the unstable Go sorts are
modelled by their stable resolution). -/
theorem extractRelevantV3_deterministic_of_distinct_starts (res1 res2 : fileJob)
    (freq : List (String × Int)) (rl : Int) (ind : List Nat)
    (hC : res1.Content = res2.Content)
    (hperm : List.Perm (flattenLocations res1.MatchLocations)
      (flattenLocations res2.MatchLocations))
    (hdist : (flattenLocations res1.MatchLocations).Pairwise fun a b => a.Start ≠ b.Start) :
    extractRelevantV3 res1 freq rl ind = extractRelevantV3 res2 freq rl ind := by
  have hsl : sortedLocations res1 = sortedLocations res2 := by
    unfold sortedLocations
    exact sortByStart_eq_of_perm _ _ hperm hdist
  unfold extractRelevantV3
  rw [hsl, buildAllFrom_congr res1 res2 freq rl (sortedLocations res2)
      (List.range (sortedLocations res2).length) hC, hC]

/-- Sample document for the C4 witness: two matches with distinct start
offsets, in one iteration order. -/
def jobD1 : fileJob :=
  ⟨"d.go", "/r/d.go", [97, 98, 99, 100, 101, 102, 103], 7,
    [("a", [(0, 1)]), ("b", [(5, 6)])], .frac 0 1⟩

/-- The same document as jobD1 in the opposite iteration order. -/
def jobD2 : fileJob :=
  ⟨"d.go", "/r/d.go", [97, 98, 99, 100, 101, 102, 103], 7,
    [("b", [(5, 6)]), ("a", [(0, 1)])], .frac 0 1⟩

/-- Witness for the amended C4 theorem: with distinct start offsets the
two iteration orders agree. -/
theorem extractRelevantV3_deterministic_of_distinct_starts_witness :
    jobD1.Content = jobD2.Content ∧
      List.Perm (flattenLocations jobD1.MatchLocations)
        (flattenLocations jobD2.MatchLocations) ∧
      (flattenLocations jobD1.MatchLocations).Pairwise (fun a b => a.Start ≠ b.Start) ∧
      extractRelevantV3 jobD1 [("a", 1), ("b", 1)] 2 [] =
        extractRelevantV3 jobD2 [("a", 1), ("b", 1)] 2 [] :=
  ⟨by decide, by decide, by decide,
    extractRelevantV3_deterministic_of_distinct_starts jobD1 jobD2 [("a", 1), ("b", 1)] 2 []
      (by decide) (by decide) (by decide)⟩
